import Mathlib

/-!
Verification of the clean → derive → rank pipeline of the taxi-emissions
project (clean.py, analysis.py) against its natural-language specification.

Numeric embedding: SQL TIMESTAMP values are modelled as integer epoch
seconds (date_diff in seconds is then plain subtraction), SQL DOUBLE
columns as rationals, INTEGER columns as Int.
-/

namespace TaxiPipeline

/-- A row of the yellow_trips_2024 raw table (the columns clean.py reads). -/
structure YellowRow where
  tpep_pickup_datetime : Int
  tpep_dropoff_datetime : Int
  passenger_count : Int
  trip_distance : ℚ
  PULocationID : Int
  DOLocationID : Int
  fare_amount : ℚ
  tip_amount : ℚ
  total_amount : ℚ
  payment_type : Int
deriving DecidableEq, Repr

/-- A row of the green_trips_2024 raw table (the columns clean.py reads). -/
structure GreenRow where
  lpep_pickup_datetime : Int
  lpep_dropoff_datetime : Int
  passenger_count : Int
  trip_distance : ℚ
  PULocationID : Int
  DOLocationID : Int
  fare_amount : ℚ
  tip_amount : ℚ
  total_amount : ℚ
  payment_type : Int
deriving DecidableEq, Repr

/-- A row of the trips_2024_unified_raw view of clean.py: the common
column set, tagged with taxi_color. -/
structure UnifiedRaw where
  taxi_color : String
  pickup_datetime : Int
  dropoff_datetime : Int
  passenger_count : Int
  trip_distance : ℚ
  pickup_location_id : Int
  dropoff_location_id : Int
  fare_amount : ℚ
  tip_amount : ℚ
  total_amount : ℚ
  payment_type : Int
deriving DecidableEq, Repr

/-- The trips_2024_unified_raw view: yellow rows UNION ALL green rows,
each projected onto the common schema. -/
def trips_2024_unified_raw (ys : List YellowRow) (gs : List GreenRow) :
    List UnifiedRaw :=
  ys.map (fun y =>
    ⟨"yellow", y.tpep_pickup_datetime, y.tpep_dropoff_datetime,
      y.passenger_count, y.trip_distance, y.PULocationID, y.DOLocationID,
      y.fare_amount, y.tip_amount, y.total_amount, y.payment_type⟩)
  ++ gs.map (fun g =>
    ⟨"green", g.lpep_pickup_datetime, g.lpep_dropoff_datetime,
      g.passenger_count, g.trip_distance, g.PULocationID, g.DOLocationID,
      g.fare_amount, g.tip_amount, g.total_amount, g.payment_type⟩)

/-- A row of the trips_2024_stage table: the unified columns plus
duration_seconds = date_diff('second', pickup, dropoff). -/
structure StageTrip where
  taxi_color : String
  pickup_datetime : Int
  dropoff_datetime : Int
  passenger_count : Int
  trip_distance_miles : ℚ
  pickup_location_id : Int
  dropoff_location_id : Int
  fare_amount : ℚ
  tip_amount : ℚ
  total_amount : ℚ
  payment_type : Int
  duration_seconds : Int
deriving DecidableEq, Repr

/-- Materialization of one staged row from a unified row (clean.py,
trips_2024_stage): duration_seconds is dropoff − pickup in seconds. -/
def stageRow (u : UnifiedRaw) : StageTrip :=
  ⟨u.taxi_color, u.pickup_datetime, u.dropoff_datetime, u.passenger_count,
    u.trip_distance, u.pickup_location_id, u.dropoff_location_id,
    u.fare_amount, u.tip_amount, u.total_amount, u.payment_type,
    u.dropoff_datetime - u.pickup_datetime⟩

/-- The trips_2024_stage table built from the raw tables. -/
def trips_2024_stage (ys : List YellowRow) (gs : List GreenRow) :
    List StageTrip :=
  (trips_2024_unified_raw ys gs).map stageRow

/-- The dedup key of clean.py: every staged column except
duration_seconds (PARTITION BY list of the ranked CTE). -/
structure DedupKey where
  taxi_color : String
  pickup_datetime : Int
  dropoff_datetime : Int
  pickup_location_id : Int
  dropoff_location_id : Int
  passenger_count : Int
  trip_distance_miles : ℚ
  fare_amount : ℚ
  tip_amount : ℚ
  total_amount : ℚ
  payment_type : Int
deriving DecidableEq, Repr

/-- Key extraction for a staged row. -/
def dedupKey (t : StageTrip) : DedupKey :=
  ⟨t.taxi_color, t.pickup_datetime, t.dropoff_datetime,
    t.pickup_location_id, t.dropoff_location_id, t.passenger_count,
    t.trip_distance_miles, t.fare_amount, t.tip_amount, t.total_amount,
    t.payment_type⟩

/-- The trips_2024_dedup table: ROW_NUMBER() OVER (PARTITION BY dedup key
ORDER BY pickup_datetime), keep rn = 1.  pickup_datetime is constant
inside a partition (it is part of the key), so the survivor of each key
is the first row of the partition in scan order; we keep the first
occurrence of each key. -/
def trips_2024_dedup : List StageTrip → List StageTrip
  | [] => []
  | t :: ts =>
    t :: (trips_2024_dedup ts).filter (fun u => decide (dedupKey u ≠ dedupKey t))

/-- The WHERE clause of trips_2024_clean as a Boolean row predicate. -/
def validTrip (t : StageTrip) : Bool :=
  decide (t.passenger_count > 0)
  && decide (t.trip_distance_miles > 0)
  && decide (t.trip_distance_miles ≤ 100)
  && decide (t.duration_seconds ≥ 0)
  && decide (t.duration_seconds ≤ 86400)

/-- The trips_2024_clean table: the validity filter applied to the
deduplicated table. -/
def trips_2024_clean (stage : List StageTrip) : List StageTrip :=
  (trips_2024_dedup stage).filter validTrip

/-- Verification check duplicates_remaining: the number of dedup-key
groups of the clean table holding more than one row. -/
def duplicates_remaining (clean : List StageTrip) : Nat :=
  (((clean.map dedupKey).dedup).filter
    (fun k => decide ((clean.filter (fun t => decide (dedupKey t = k))).length > 1))).length

/-- Verification check zero_passengers. -/
def zero_passengers (clean : List StageTrip) : Nat :=
  (clean.filter (fun t => decide (t.passenger_count = 0))).length

/-- Verification check zero_miles. -/
def zero_miles (clean : List StageTrip) : Nat :=
  (clean.filter (fun t => decide (t.trip_distance_miles = 0))).length

/-- Verification check over_100_miles. -/
def over_100_miles (clean : List StageTrip) : Nat :=
  (clean.filter (fun t => decide (t.trip_distance_miles > 100))).length

/-- Verification check over_1_day. -/
def over_1_day (clean : List StageTrip) : Nat :=
  (clean.filter (fun t => decide (t.duration_seconds > 86400))).length

/-- Verification check negative_duration. -/
def negative_duration (clean : List StageTrip) : Nat :=
  (clean.filter (fun t => decide (t.duration_seconds < 0))).length

/-! ### Basic lemmas about deduplication -/

theorem mem_of_mem_dedup {t : StageTrip} :
    ∀ {l : List StageTrip}, t ∈ trips_2024_dedup l → t ∈ l := by
  intro l
  induction l with
  | nil => intro h; simp [trips_2024_dedup] at h
  | cons a ts ih =>
    intro h
    rcases List.mem_cons.mp h with h | h
    · exact h ▸ List.mem_cons_self _ _
    · exact List.mem_cons_of_mem _ (ih (List.mem_of_mem_filter h))

theorem dedup_keys_pairwise :
    ∀ (l : List StageTrip),
      (trips_2024_dedup l).Pairwise (fun a b => dedupKey a ≠ dedupKey b) := by
  intro l
  induction l with
  | nil => simp [trips_2024_dedup]
  | cons a ts ih =>
    refine List.pairwise_cons.mpr ⟨?_, ih.filter _⟩
    intro b hb
    have := List.of_mem_filter hb
    simpa [eq_comm] using of_decide_eq_true this

theorem exists_mem_dedup_of_mem {t : StageTrip} :
    ∀ {l : List StageTrip}, t ∈ l →
      ∃ u ∈ trips_2024_dedup l, dedupKey u = dedupKey t := by
  intro l
  induction l with
  | nil => intro h; simp at h
  | cons a ts ih =>
    intro h
    by_cases hk : dedupKey t = dedupKey a
    · exact ⟨a, List.mem_cons_self _ _, hk.symm⟩
    · rcases List.mem_cons.mp h with rfl | h
      · exact absurd rfl hk
      · obtain ⟨u, hu, hku⟩ := ih h
        have hne : dedupKey u ≠ dedupKey a := hku ▸ hk
        exact ⟨u, List.mem_cons_of_mem _
          (List.mem_filter.mpr ⟨hu, decide_eq_true hne⟩), hku⟩

theorem dedup_eq_self_of_pairwise :
    ∀ {l : List StageTrip},
      l.Pairwise (fun a b => dedupKey a ≠ dedupKey b) → trips_2024_dedup l = l := by
  intro l
  induction l with
  | nil => intro _; rfl
  | cons a ts ih =>
    intro h
    rcases List.pairwise_cons.mp h with ⟨ha, hts⟩
    show a :: (trips_2024_dedup ts).filter _ = a :: ts
    rw [ih hts, List.filter_eq_self.mpr]
    intro b hb
    exact decide_eq_true fun hba => (ha b hb) hba.symm

theorem dedup_countP_key {l : List StageTrip} {k : DedupKey}
    (h : k ∈ l.map dedupKey) :
    ((trips_2024_dedup l).filter (fun t => decide (dedupKey t = k))).length = 1 := by
  obtain ⟨t, ht, rfl⟩ := List.mem_map.mp h
  obtain ⟨u, hu, hku⟩ := exists_mem_dedup_of_mem ht
  have hmemf : u ∈ (trips_2024_dedup l).filter (fun v => decide (dedupKey v = dedupKey t)) :=
    List.mem_filter.mpr ⟨hu, decide_eq_true hku⟩
  have hpwf : ((trips_2024_dedup l).filter (fun v => decide (dedupKey v = dedupKey t))).Pairwise
      (fun a b => dedupKey a ≠ dedupKey b) :=
    (dedup_keys_pairwise l).filter _
  rcases hl : (trips_2024_dedup l).filter (fun v => decide (dedupKey v = dedupKey t)) with _ | ⟨x, xs⟩
  · rw [hl] at hmemf; simp at hmemf
  · rcases xs with _ | ⟨y, ys⟩
    · rfl
    · exfalso
      rw [hl] at hpwf
      have hxy := (List.pairwise_cons.mp hpwf).1 y (List.mem_cons_self _ _)
      have hxk : dedupKey x = dedupKey t := by
        have : x ∈ (trips_2024_dedup l).filter (fun v => decide (dedupKey v = dedupKey t)) :=
          hl ▸ List.mem_cons_self _ _
        exact of_decide_eq_true (List.mem_filter.mp this).2
      have hyk : dedupKey y = dedupKey t := by
        have : y ∈ (trips_2024_dedup l).filter (fun v => decide (dedupKey v = dedupKey t)) :=
          hl ▸ List.mem_cons_of_mem _ (List.mem_cons_self _ _)
        exact of_decide_eq_true (List.mem_filter.mp this).2
      exact hxy (hxk.trans hyk.symm)

theorem filter_key_length_le_one {l : List StageTrip}
    (h : l.Pairwise (fun a b => dedupKey a ≠ dedupKey b)) (k : DedupKey) :
    (l.filter (fun t => decide (dedupKey t = k))).length ≤ 1 := by
  induction l with
  | nil => simp
  | cons a ts ih =>
    rcases List.pairwise_cons.mp h with ⟨ha, hts⟩
    simp only [List.filter_cons]
    by_cases hk : dedupKey a = k
    · rw [if_pos (by simpa using hk)]
      have hnil : ts.filter (fun t => decide (dedupKey t = k)) = [] := by
        apply List.filter_eq_nil_iff.mpr
        intro b hb
        simp only [decide_eq_true_eq]
        exact fun hbk => ha b hb (hk.trans hbk.symm)
      simp [hnil]
    · rw [if_neg (by simpa using hk)]
      exact ih hts

/-! ### Concrete staged rows for witnesses and counterexamples.
Two rows identical in every dedup-key field except the pickup timestamp:
09:00 (32400 s) versus 09:05 (32700 s), both dropping off at 09:30. -/

def exTrip900 : StageTrip :=
  ⟨"yellow", 32400, 34200, 1, 2, 10, 20, 10, 2, 12, 1, 1800⟩

def exTrip905 : StageTrip :=
  ⟨"yellow", 32700, 34200, 1, 2, 10, 20, 10, 2, 12, 1, 1500⟩

/-! ### Claim C1 -/

/-- C1 (counterexample): the dedup key of clean.py includes
pickup_datetime, so two rows identical in the other dedup-key fields but
with pickup timestamps 09:00 and 09:05 fall in different partitions and
BOTH survive deduplication — it is false that exactly one survives. -/
theorem C1_counterexample :
    trips_2024_dedup [exTrip900, exTrip905] = [exTrip900, exTrip905] ∧
    ¬ (trips_2024_dedup [exTrip900, exTrip905]).length = 1 := by
  constructor
  · decide
  · decide

/-- C1 (amended): among rows sharing the full dedup key (which contains
pickup_datetime) exactly one row survives deduplication, and every
survivor of the key carries the key's pickup timestamp — so the survivor
trivially has the earliest pickup among the tied rows, which all share
it.  Rows differing in pickup timestamp are never merged. -/
theorem C1_one_survivor_per_key (stage : List StageTrip) (k : DedupKey)
    (h : k ∈ stage.map dedupKey) :
    ((trips_2024_dedup stage).filter (fun t => decide (dedupKey t = k))).length = 1 ∧
    ∀ t ∈ trips_2024_dedup stage, dedupKey t = k →
      t.pickup_datetime = k.pickup_datetime := by
  constructor
  · obtain ⟨t, ht, rfl⟩ := List.mem_map.mp h
    obtain ⟨u, hu, hku⟩ := exists_mem_dedup_of_mem ht
    refine le_antisymm (filter_key_length_le_one (dedup_keys_pairwise stage) _) ?_
    have : u ∈ (trips_2024_dedup stage).filter (fun v => decide (dedupKey v = dedupKey t)) :=
      List.mem_filter.mpr ⟨hu, decide_eq_true hku⟩
    exact List.length_pos.mpr (List.ne_nil_of_mem this)
  · intro t _ hk
    exact congrArg DedupKey.pickup_datetime hk

/-- C1 witness: a concrete one-row stage where the amended statement
applies. -/
theorem C1_one_survivor_per_key_witness :
    ((trips_2024_dedup [exTrip900]).filter
        (fun t => decide (dedupKey t = dedupKey exTrip900))).length = 1 :=
  (C1_one_survivor_per_key [exTrip900] (dedupKey exTrip900) (by decide)).1

/-! ### Claim C2 -/

/-- C2: every row of trips_2024_clean satisfies the validity invariants,
and all five row-level verification counts are zero, for every input. -/
theorem C2_clean_invariants (stage : List StageTrip) :
    (∀ t ∈ trips_2024_clean stage,
      0 < t.passenger_count ∧ 0 < t.trip_distance_miles ∧
      t.trip_distance_miles ≤ 100 ∧ 0 ≤ t.duration_seconds ∧
      t.duration_seconds ≤ 86400) ∧
    zero_passengers (trips_2024_clean stage) = 0 ∧
    zero_miles (trips_2024_clean stage) = 0 ∧
    over_100_miles (trips_2024_clean stage) = 0 ∧
    over_1_day (trips_2024_clean stage) = 0 ∧
    negative_duration (trips_2024_clean stage) = 0 := by
  have hvalid : ∀ t ∈ trips_2024_clean stage,
      0 < t.passenger_count ∧ 0 < t.trip_distance_miles ∧
      t.trip_distance_miles ≤ 100 ∧ 0 ≤ t.duration_seconds ∧
      t.duration_seconds ≤ 86400 := by
    intro t ht
    have hv := List.of_mem_filter ht
    simp only [validTrip, Bool.and_eq_true, decide_eq_true_eq] at hv
    exact ⟨hv.1.1.1.1, hv.1.1.1.2, hv.1.1.2, hv.1.2, hv.2⟩
  refine ⟨hvalid, ?_, ?_, ?_, ?_, ?_⟩
  all_goals
    simp only [zero_passengers, zero_miles, over_100_miles, over_1_day,
      negative_duration, List.length_eq_zero]
  all_goals
    apply List.filter_eq_nil_iff.mpr
    intro t ht
    have hv := hvalid t ht
    simp only [decide_eq_true_eq]
  · omega
  · exact fun h => absurd (h ▸ hv.2.1) (lt_irrefl 0)
  · exact not_lt.mpr hv.2.2.1
  · omega
  · omega

/-- C2 witness: the invariants evaluated on a concrete cleaned row. -/
theorem C2_clean_invariants_witness :
    0 < exTrip900.passenger_count ∧
    zero_passengers (trips_2024_clean [exTrip900]) = 0 :=
  ⟨((C2_clean_invariants [exTrip900]).1 exTrip900 (by decide)).1,
    (C2_clean_invariants [exTrip900]).2.1⟩

/-! ### Claim C3 -/

/-- C3: no two rows of trips_2024_clean share a dedup key, and the
duplicates_remaining verification count is zero, for every input. -/
theorem C3_clean_keys_unique (stage : List StageTrip) :
    (trips_2024_clean stage).Pairwise (fun a b => dedupKey a ≠ dedupKey b) ∧
    duplicates_remaining (trips_2024_clean stage) = 0 := by
  have hpw : (trips_2024_clean stage).Pairwise (fun a b => dedupKey a ≠ dedupKey b) :=
    (dedup_keys_pairwise stage).filter _
  refine ⟨hpw, ?_⟩
  simp only [duplicates_remaining, List.length_eq_zero]
  apply List.filter_eq_nil_iff.mpr
  intro k _
  simp only [decide_eq_true_eq, not_lt]
  exact filter_key_length_le_one hpw k

/-! ### Claim C6 -/

/-- C6: the Cleaning Engine is idempotent — deduplicating and filtering
its own output returns it unchanged, for every input. -/
theorem C6_clean_idempotent (stage : List StageTrip) :
    trips_2024_clean (trips_2024_clean stage) = trips_2024_clean stage := by
  show (trips_2024_dedup ((trips_2024_dedup stage).filter validTrip)).filter validTrip
      = (trips_2024_dedup stage).filter validTrip
  rw [dedup_eq_self_of_pairwise ((dedup_keys_pairwise stage).filter _),
    List.filter_filter]
  simp only [Bool.and_self]

/-! ### Claim C10 -/

/-- SELECT DISTINCT over the staged rows, stated from the spec side of
the refinement claim: one representative of every full-row value. -/
def selectDistinct (l : List StageTrip) : List StageTrip :=
  l.dedup

theorem dedupKey_inj {a b : StageTrip}
    (ha : a.duration_seconds = a.dropoff_datetime - a.pickup_datetime)
    (hb : b.duration_seconds = b.dropoff_datetime - b.pickup_datetime)
    (h : dedupKey a = dedupKey b) : a = b := by
  cases a
  cases b
  simp only [dedupKey, DedupKey.mk.injEq] at h
  simp only at ha hb
  simp_all only [StageTrip.mk.injEq, and_self]

theorem stage_duration_derived (ys : List YellowRow) (gs : List GreenRow) :
    ∀ r ∈ trips_2024_stage ys gs,
      r.duration_seconds = r.dropoff_datetime - r.pickup_datetime := by
  intro r hr
  obtain ⟨u, _, rfl⟩ := List.mem_map.mp hr
  rfl

theorem mem_dedup_iff_of_derived {l : List StageTrip}
    (hd : ∀ r ∈ l, r.duration_seconds = r.dropoff_datetime - r.pickup_datetime)
    {r : StageTrip} : r ∈ trips_2024_dedup l ↔ r ∈ l := by
  constructor
  · exact mem_of_mem_dedup
  · intro h
    obtain ⟨u, hu, hku⟩ := exists_mem_dedup_of_mem h
    exact dedupKey_inj (hd u (mem_of_mem_dedup hu)) (hd r h) hku ▸ hu

/-- C10: on the staged table, where duration_seconds is derived from the
timestamps in the dedup key, deduplication by key is equivalent to
SELECT DISTINCT — it has the same rows as full-row deduplication, and
any two staged rows that differ in any unified field both survive. -/
theorem C10_dedup_refines_distinct (ys : List YellowRow) (gs : List GreenRow) :
    (∀ r, r ∈ trips_2024_dedup (trips_2024_stage ys gs) ↔
      r ∈ selectDistinct (trips_2024_stage ys gs)) ∧
    (∀ r1 ∈ trips_2024_stage ys gs, ∀ r2 ∈ trips_2024_stage ys gs,
      r1 ≠ r2 →
        r1 ∈ trips_2024_dedup (trips_2024_stage ys gs) ∧
        r2 ∈ trips_2024_dedup (trips_2024_stage ys gs)) := by
  have hiff : ∀ r, r ∈ trips_2024_dedup (trips_2024_stage ys gs) ↔
      r ∈ trips_2024_stage ys gs := fun r =>
    mem_dedup_iff_of_derived (stage_duration_derived ys gs)
  constructor
  · intro r
    rw [hiff r, selectDistinct, List.mem_dedup]
  · intro r1 h1 r2 h2 _
    exact ⟨(hiff r1).mpr h1, (hiff r2).mpr h2⟩

/-- An example raw yellow row (09:00 → 09:30, 2 miles). -/
def exYellow : YellowRow := ⟨32400, 34200, 1, 2, 10, 20, 10, 2, 12, 1⟩

/-- An example raw green row (10:00 → 10:20, 3 miles). -/
def exGreen : GreenRow := ⟨36000, 37200, 2, 3, 30, 40, 9, 1, 10, 1⟩

/-- C10 witness: with one yellow and one green raw row, both distinct
staged rows survive deduplication. -/
theorem C10_dedup_refines_distinct_witness :
    stageRow ⟨"yellow", 32400, 34200, 1, 2, 10, 20, 10, 2, 12, 1⟩
        ∈ trips_2024_dedup (trips_2024_stage [exYellow] [exGreen]) ∧
    stageRow ⟨"green", 36000, 37200, 2, 3, 30, 40, 9, 1, 10, 1⟩
        ∈ trips_2024_dedup (trips_2024_stage [exYellow] [exGreen]) :=
  (C10_dedup_refines_distinct [exYellow] [exGreen]).2
    (stageRow ⟨"yellow", 32400, 34200, 1, 2, 10, 20, 10, 2, 12, 1⟩) (by decide)
    (stageRow ⟨"green", 36000, 37200, 2, 3, 30, 40, 9, 1, 10, 1⟩) (by decide)
    (by decide)

/-! ### Claim C8 -/

/-- The stored outputs of clean.py's run: the stage, dedup and clean
tables (trips_2024_unified_raw is a view holding no rows).  None means
the table does not exist yet; some holds the table contents. -/
structure Store where
  stage : Option (List StageTrip)
  dedup : Option (List StageTrip)
  clean : Option (List StageTrip)
deriving DecidableEq, Repr

/-- The successive CREATE OR REPLACE TABLE statements of clean.py's
main, as store transformers in program order.  Each con.execute call is
a separate auto-committed statement. -/
def cleanStatements (ys : List YellowRow) (gs : List GreenRow) :
    List (Store → Store) :=
  [fun s => { s with stage := some (trips_2024_stage ys gs) },
   fun s => { s with dedup := some (trips_2024_dedup (trips_2024_stage ys gs)) },
   fun s => { s with clean := some (trips_2024_clean (trips_2024_stage ys gs)) }]

/-- A run of clean.py's main in which an exception is raised after the
first k statements commit: the except handler only logs, so the store
keeps exactly the first k replacements. -/
def runCleanPrefix (ys : List YellowRow) (gs : List GreenRow)
    (s0 : Store) (k : Nat) : Store :=
  ((cleanStatements ys gs).take k).foldl (fun s f => f s) s0

/-- A complete (non-failing) run of clean.py's main. -/
def runClean (ys : List YellowRow) (gs : List GreenRow) (s0 : Store) : Store :=
  runCleanPrefix ys gs s0 3

/-- A prior store state in which all three output tables exist (with
stale contents). -/
def exOldStore : Store := ⟨some [], some [], some []⟩

/-- C8 (counterexample): a run over one yellow row that fails after the
second statement leaves the stage and dedup tables replaced but the
clean table stale — a state that is neither the untouched prior store
nor the complete output, refuting stage-level atomicity. -/
theorem C8_counterexample :
    runCleanPrefix [exYellow] [] exOldStore 2 ≠ exOldStore ∧
    runCleanPrefix [exYellow] [] exOldStore 2 ≠ runClean [exYellow] [] exOldStore := by
  exact ⟨by decide, by decide⟩

/-- C8 (amended): atomicity holds per statement, not per stage — a run
that fails after k statements leaves exactly the first k output tables
replaced with their full new contents and every later table untouched. -/
theorem C8_per_statement_atomicity (ys : List YellowRow) (gs : List GreenRow)
    (s0 : Store) :
    runCleanPrefix ys gs s0 0 = s0 ∧
    runCleanPrefix ys gs s0 1 =
      { s0 with stage := some (trips_2024_stage ys gs) } ∧
    runCleanPrefix ys gs s0 2 =
      { s0 with stage := some (trips_2024_stage ys gs),
                dedup := some (trips_2024_dedup (trips_2024_stage ys gs)) } ∧
    runClean ys gs s0 =
      ⟨some (trips_2024_stage ys gs),
       some (trips_2024_dedup (trips_2024_stage ys gs)),
       some (trips_2024_clean (trips_2024_stage ys gs))⟩ :=
  ⟨rfl, rfl, rfl, rfl⟩

/-! ### The Ranking Engine (analysis.py) -/

/-- A row of trips_2024_transformed, with the columns analysis.py reads:
the cleaned trip columns it selects plus trip_co2_kgs and the four
temporal buckets. -/
structure TransformedTrip where
  taxi_color : String
  trip_co2_kgs : ℚ
  trip_distance_miles : ℚ
  pickup_datetime : Int
  dropoff_datetime : Int
  hour_of_day : Int
  day_of_week : Int
  week_of_year : Int
  month_of_year : Int
deriving DecidableEq, Repr

/-- The rn = 1 row of a ROW_NUMBER() window over one partition: a linear
scan in window order keeping the incumbent unless a later element is
strictly better, so equal elements resolve to the earlier one.  The SQL
leaves the tie order unspecified; the scan order stands in for the
engine's arbitrary order. -/
def windowTop {α : Type} (strictlyBetter : α → α → Bool) :
    List α → Option α
  | [] => none
  | x :: xs =>
    match windowTop strictlyBetter xs with
    | none => some x
    | some y => if strictlyBetter y x then some y else some x

theorem windowTop_eq_none {α : Type} (b : α → α → Bool) :
    ∀ {l : List α}, windowTop b l = none → l = [] := by
  intro l h
  cases l with
  | nil => rfl
  | cons a as =>
    exfalso
    cases hw : windowTop b as with
    | none => simp [windowTop, hw] at h
    | some y =>
      simp only [windowTop, hw] at h
      split at h <;> simp at h

theorem windowTop_max_spec {α β : Type} [LinearOrder β] (f : α → β) :
    ∀ (l : List α) (x : α),
      windowTop (fun a b => decide (f b < f a)) l = some x →
      x ∈ l ∧ ∀ y ∈ l, f y ≤ f x := by
  intro l
  induction l with
  | nil => intro x h; simp [windowTop] at h
  | cons a as ih =>
    intro x h
    cases has : windowTop (fun a b => decide (f b < f a)) as with
    | none =>
      have hnil := windowTop_eq_none _ has
      subst hnil
      simp only [windowTop, has, Option.some.injEq] at h
      subst h
      exact ⟨List.mem_cons_self _ _, by simp⟩
    | some y =>
      obtain ⟨hy, hmax⟩ := ih y has
      simp only [windowTop, has] at h
      by_cases hb : f a < f y
      · rw [if_pos (by simpa using hb)] at h
        cases h
        refine ⟨List.mem_cons_of_mem _ hy, ?_⟩
        intro z hz
        rcases List.mem_cons.mp hz with rfl | hz
        · exact le_of_lt hb
        · exact hmax z hz
      · rw [if_neg (by simpa using hb)] at h
        cases h
        refine ⟨List.mem_cons_self _ _, ?_⟩
        intro z hz
        rcases List.mem_cons.mp hz with rfl | hz
        · exact le_refl _
        · exact le_trans (hmax z hz) (not_lt.mp hb)

theorem windowTop_min_spec {α β : Type} [LinearOrder β] (f : α → β) :
    ∀ (l : List α) (x : α),
      windowTop (fun a b => decide (f a < f b)) l = some x →
      x ∈ l ∧ ∀ y ∈ l, f x ≤ f y := by
  intro l x h
  have := windowTop_max_spec (β := βᵒᵈ) (f := fun a => OrderDual.toDual (f a)) l x ?_
  · exact ⟨this.1, fun y hy => this.2 y hy⟩
  · convert h using 2

theorem windowTop_isSome {α : Type} (b : α → α → Bool) :
    ∀ {l : List α}, l ≠ [] → ∃ x, windowTop b l = some x := by
  intro l h
  cases l with
  | nil => exact absurd rfl h
  | cons a as =>
    simp only [windowTop]
    rcases windowTop b as with _ | y
    · exact ⟨a, rfl⟩
    · by_cases hb : b y a = true
      · exact ⟨y, by simp [hb]⟩
      · exact ⟨a, by simp [hb]⟩

/-- The inner query of largest_sql restricted to one taxi_color: the
rn = 1 row of ROW_NUMBER() OVER (PARTITION BY taxi_color ORDER BY
trip_co2_kgs DESC). -/
def largestTrip (trips : List TransformedTrip) (c : String) :
    Option TransformedTrip :=
  windowTop (fun a b => decide (b.trip_co2_kgs < a.trip_co2_kgs))
    (trips.filter (fun t => decide (t.taxi_color = c)))

/-- The rows of one (taxi_color, dimension-value) group of the stats CTE
of heavy_light. -/
def groupRows (trips : List TransformedTrip) (c : String)
    (dim : TransformedTrip → Int) (k : Int) : List TransformedTrip :=
  trips.filter (fun t => decide (t.taxi_color = c) && decide (dim t = k))

/-- AVG(trip_co2_kgs) of one group of the stats CTE. -/
def avg_co2 (trips : List TransformedTrip) (c : String)
    (dim : TransformedTrip → Int) (k : Int) : ℚ :=
  ((groupRows trips c dim k).map TransformedTrip.trip_co2_kgs).sum /
    ((groupRows trips c dim k).length : ℚ)

/-- The stats CTE of heavy_light for one taxi_color: one (k, avg_co2)
row per distinct dimension value of that color, in first-seen order. -/
def stats (trips : List TransformedTrip) (c : String)
    (dim : TransformedTrip → Int) : List (Int × ℚ) :=
  (((trips.filter (fun t => decide (t.taxi_color = c))).map dim).dedup).map
    (fun k => (k, avg_co2 trips c dim k))

/-- The rmax = 1 row of heavy_light for one taxi_color (ORDER BY avg_co2
DESC). -/
def heaviest (trips : List TransformedTrip) (c : String)
    (dim : TransformedTrip → Int) : Option (Int × ℚ) :=
  windowTop (fun a b => decide (b.2 < a.2)) (stats trips c dim)

/-- The rmin = 1 row of heavy_light for one taxi_color (ORDER BY avg_co2
ASC). -/
def lightest (trips : List TransformedTrip) (c : String)
    (dim : TransformedTrip → Int) : Option (Int × ℚ) :=
  windowTop (fun a b => decide (a.2 < b.2)) (stats trips c dim)

/-! ### Concrete transformed rows -/

def exT1 : TransformedTrip := ⟨"yellow", 5, 2, 32400, 34200, 9, 1, 14, 4⟩

def exT2 : TransformedTrip := ⟨"yellow", 5, 3, 36000, 37800, 10, 2, 14, 4⟩

def exT3 : TransformedTrip := ⟨"yellow", 7, 4, 39600, 41400, 11, 3, 14, 4⟩

/-! ### Claim C5 -/

/-- C5: for every vehicle class with at least one transformed trip, the
largest-CO2 report returns exactly one trip of that class, and its
trip_co2_kgs bounds every same-class trip from above. -/
theorem C5_largest_per_class (trips : List TransformedTrip) (c : String)
    (h : ∃ t ∈ trips, t.taxi_color = c) :
    ∃ u, largestTrip trips c = some u ∧ u ∈ trips ∧ u.taxi_color = c ∧
      ∀ t ∈ trips, t.taxi_color = c → t.trip_co2_kgs ≤ u.trip_co2_kgs := by
  obtain ⟨t, ht, hc⟩ := h
  have hne : trips.filter (fun t => decide (t.taxi_color = c)) ≠ [] :=
    List.ne_nil_of_mem (List.mem_filter.mpr ⟨ht, decide_eq_true hc⟩)
  obtain ⟨u, hu⟩ := windowTop_isSome
    (fun a b : TransformedTrip => decide (b.trip_co2_kgs < a.trip_co2_kgs)) hne
  obtain ⟨humem, hmax⟩ :=
    windowTop_max_spec (fun t : TransformedTrip => t.trip_co2_kgs) _ u hu
  refine ⟨u, hu, List.mem_of_mem_filter humem,
    of_decide_eq_true (List.mem_filter.mp humem).2, ?_⟩
  intro s hs hsc
  exact hmax s (List.mem_filter.mpr ⟨hs, decide_eq_true hsc⟩)

/-- C5 witness: the class maximum on a concrete two-trip set. -/
theorem C5_largest_per_class_witness :
    ∃ u, largestTrip [exT1, exT3] "yellow" = some u ∧ u ∈ [exT1, exT3] ∧
      u.taxi_color = "yellow" ∧
      ∀ t ∈ [exT1, exT3], t.taxi_color = "yellow" →
        t.trip_co2_kgs ≤ u.trip_co2_kgs :=
  C5_largest_per_class [exT1, exT3] "yellow" ⟨exT1, List.mem_cons_self _ _, rfl⟩

/-! ### Claim C4 -/

/-- C4: for each of the four temporal dimensions and every vehicle class
present among the transformed trips, the reported heaviest bucket's mean
trip_co2_kgs is ≥ the mean of every bucket of the same (class,
dimension) group, and the lightest bucket's mean is ≤ every such mean. -/
theorem C4_heavy_light_extremal (trips : List TransformedTrip) (c : String)
    (dim : TransformedTrip → Int)
    (_hdim : dim ∈ [TransformedTrip.hour_of_day, TransformedTrip.day_of_week,
      TransformedTrip.week_of_year, TransformedTrip.month_of_year])
    (hc : ∃ t ∈ trips, t.taxi_color = c) :
    ∃ ph pl, heaviest trips c dim = some ph ∧ lightest trips c dim = some pl ∧
      (∀ q ∈ stats trips c dim, q.2 ≤ ph.2) ∧
      (∀ q ∈ stats trips c dim, pl.2 ≤ q.2) := by
  obtain ⟨t, ht, hcol⟩ := hc
  have hne : stats trips c dim ≠ [] := by
    have hk : dim t ∈ ((trips.filter (fun t => decide (t.taxi_color = c))).map dim).dedup := by
      rw [List.mem_dedup]
      exact List.mem_map_of_mem _ (List.mem_filter.mpr ⟨ht, decide_eq_true hcol⟩)
    exact List.ne_nil_of_mem (List.mem_map_of_mem _ hk)
  obtain ⟨ph, hph⟩ := windowTop_isSome
    (fun a b : Int × ℚ => decide (b.2 < a.2)) hne
  obtain ⟨pl, hpl⟩ := windowTop_isSome
    (fun a b : Int × ℚ => decide (a.2 < b.2)) hne
  obtain ⟨_, hmax⟩ := windowTop_max_spec (fun p : Int × ℚ => p.2) _ ph hph
  obtain ⟨_, hmin⟩ := windowTop_min_spec (fun p : Int × ℚ => p.2) _ pl hpl
  exact ⟨ph, pl, hph, hpl, hmax, hmin⟩

/-- C4 witness: heaviest and lightest hour buckets on a concrete set. -/
theorem C4_heavy_light_extremal_witness :
    ∃ ph pl, heaviest [exT1, exT3] "yellow" TransformedTrip.hour_of_day = some ph ∧
      lightest [exT1, exT3] "yellow" TransformedTrip.hour_of_day = some pl ∧
      (∀ q ∈ stats [exT1, exT3] "yellow" TransformedTrip.hour_of_day, q.2 ≤ ph.2) ∧
      (∀ q ∈ stats [exT1, exT3] "yellow" TransformedTrip.hour_of_day, pl.2 ≤ q.2) :=
  C4_heavy_light_extremal [exT1, exT3] "yellow" TransformedTrip.hour_of_day
    (List.mem_cons_self _ _) ⟨exT1, List.mem_cons_self _ _, rfl⟩

/-! ### Claim C7 -/

/-- C7 (counterexample): two same-class trips tied at the maximum
trip_co2_kgs — the same trip set scanned in two orders yields two
different selected trips, so no deterministic secondary key resolves
ties in the source. -/
theorem C7_counterexample :
    List.Perm [exT1, exT2] [exT2, exT1] ∧
    largestTrip [exT1, exT2] "yellow" ≠ largestTrip [exT2, exT1] "yellow" := by
  constructor
  · exact List.Perm.swap _ _ _
  · decide

theorem avg_co2_perm {trips1 trips2 : List TransformedTrip}
    (hp : trips1.Perm trips2) (c : String) (dim : TransformedTrip → Int)
    (k : Int) : avg_co2 trips1 c dim k = avg_co2 trips2 c dim k := by
  have hg : (groupRows trips1 c dim k).Perm (groupRows trips2 c dim k) :=
    hp.filter _
  unfold avg_co2
  rw [hg.length_eq, (hg.map TransformedTrip.trip_co2_kgs).sum_eq]

theorem stats_perm {trips1 trips2 : List TransformedTrip}
    (hp : trips1.Perm trips2) (c : String) (dim : TransformedTrip → Int) :
    (stats trips1 c dim).Perm (stats trips2 c dim) := by
  unfold stats
  have hfun : (fun k => (k, avg_co2 trips1 c dim k)) =
      (fun k => (k, avg_co2 trips2 c dim k)) := by
    funext k
    rw [avg_co2_perm hp]
  rw [hfun]
  exact (((hp.filter _).map dim).dedup).map _

theorem windowTop_max_unique {α β : Type} [LinearOrder β] (f : α → β)
    {l1 l2 : List α} (hp : l1.Perm l2) {u : α} (hu : u ∈ l1)
    (huniq : ∀ x ∈ l1, x ≠ u → f x < f u) :
    windowTop (fun a b => decide (f b < f a)) l1 = some u ∧
    windowTop (fun a b => decide (f b < f a)) l2 = some u := by
  have h1 : ∀ {l : List α}, u ∈ l → (∀ x ∈ l, x ≠ u → f x < f u) →
      windowTop (fun a b => decide (f b < f a)) l = some u := by
    intro l hul huq
    obtain ⟨x, hx⟩ := windowTop_isSome _ (List.ne_nil_of_mem hul)
    obtain ⟨hxm, hmax⟩ := windowTop_max_spec f l x hx
    by_cases hxu : x = u
    · exact hxu ▸ hx
    · exact absurd (hmax u hul) (not_le.mpr (huq x hxm hxu))
  exact ⟨h1 hu huniq,
    h1 (hp.mem_iff.mp hu) (fun x hx => huniq x (hp.mem_iff.mpr hx))⟩

theorem windowTop_min_unique {α β : Type} [LinearOrder β] (f : α → β)
    {l1 l2 : List α} (hp : l1.Perm l2) {u : α} (hu : u ∈ l1)
    (huniq : ∀ x ∈ l1, x ≠ u → f u < f x) :
    windowTop (fun a b => decide (f a < f b)) l1 = some u ∧
    windowTop (fun a b => decide (f a < f b)) l2 = some u := by
  have h1 : ∀ {l : List α}, u ∈ l → (∀ x ∈ l, x ≠ u → f u < f x) →
      windowTop (fun a b => decide (f a < f b)) l = some u := by
    intro l hul huq
    obtain ⟨x, hx⟩ := windowTop_isSome _ (List.ne_nil_of_mem hul)
    obtain ⟨hxm, hmin⟩ := windowTop_min_spec f l x hx
    by_cases hxu : x = u
    · exact hxu ▸ hx
    · exact absurd (hmin u hul) (not_le.mpr (huq x hxm hxu))
  exact ⟨h1 hu huniq,
    h1 (hp.mem_iff.mp hu) (fun x hx => huniq x (hp.mem_iff.mpr hx))⟩

/-- C7 (amended): the extremal selections are deterministic whenever
the extremum is uniquely attained — any two scan orders of the same
trip set select the same largest-CO2 trip when a single trip holds the
class maximum, the same heaviest bucket when a single bucket holds the
maximal mean, and the same lightest bucket when a single bucket holds
the minimal mean; when several trips or buckets tie at the extremum,
the outcome depends on scan order. -/
theorem C7_deterministic_unique_max (trips1 trips2 : List TransformedTrip)
    (c : String) (hp : trips1.Perm trips2) :
    (∀ u ∈ trips1, u.taxi_color = c →
      (∀ t ∈ trips1, t.taxi_color = c → t ≠ u →
        t.trip_co2_kgs < u.trip_co2_kgs) →
      largestTrip trips1 c = some u ∧ largestTrip trips2 c = some u) ∧
    (∀ (dim : TransformedTrip → Int), ∀ p ∈ stats trips1 c dim,
      (∀ q ∈ stats trips1 c dim, q ≠ p → q.2 < p.2) →
      heaviest trips1 c dim = some p ∧ heaviest trips2 c dim = some p) ∧
    (∀ (dim : TransformedTrip → Int), ∀ p ∈ stats trips1 c dim,
      (∀ q ∈ stats trips1 c dim, q ≠ p → p.2 < q.2) →
      lightest trips1 c dim = some p ∧ lightest trips2 c dim = some p) := by
  refine ⟨?_, ?_, ?_⟩
  · intro u hu huc huniq
    apply windowTop_max_unique (fun t : TransformedTrip => t.trip_co2_kgs)
      (hp.filter _) (List.mem_filter.mpr ⟨hu, decide_eq_true huc⟩)
    intro x hx hxu
    exact huniq x (List.mem_of_mem_filter hx)
      (of_decide_eq_true (List.mem_filter.mp hx).2) hxu
  · intro dim p hpmem huniq
    exact windowTop_max_unique (fun q : Int × ℚ => q.2)
      (stats_perm hp c dim) hpmem huniq
  · intro dim p hpmem huniq
    exact windowTop_min_unique (fun q : Int × ℚ => q.2)
      (stats_perm hp c dim) hpmem huniq

/-- C7 witness: a unique maximal trip, and a unique minimal hour
bucket, selected identically in both scan orders. -/
theorem C7_deterministic_unique_max_witness :
    (largestTrip [exT1, exT3] "yellow" = some exT3 ∧
      largestTrip [exT3, exT1] "yellow" = some exT3) ∧
    (lightest [exT1, exT3] "yellow" TransformedTrip.hour_of_day = some (9, 5) ∧
      lightest [exT3, exT1] "yellow" TransformedTrip.hour_of_day = some (9, 5)) := by
  have hg9 : groupRows [exT1, exT3] "yellow" TransformedTrip.hour_of_day 9 =
      [exT1] := by decide
  have hg11 : groupRows [exT1, exT3] "yellow" TransformedTrip.hour_of_day 11 =
      [exT3] := by decide
  have ha9 : avg_co2 [exT1, exT3] "yellow" TransformedTrip.hour_of_day 9 = 5 := by
    rw [avg_co2, hg9]
    norm_num [exT1]
  have ha11 : avg_co2 [exT1, exT3] "yellow" TransformedTrip.hour_of_day 11 = 7 := by
    rw [avg_co2, hg11]
    norm_num [exT3]
  have hkeys : (([exT1, exT3].filter
      (fun t => decide (t.taxi_color = "yellow"))).map
      TransformedTrip.hour_of_day).dedup = [9, 11] := by decide
  have hstats : stats [exT1, exT3] "yellow" TransformedTrip.hour_of_day =
      [(9, 5), (11, 7)] := by
    rw [stats, hkeys]
    simp [ha9, ha11]
  refine ⟨(C7_deterministic_unique_max [exT1, exT3] [exT3, exT1] "yellow"
      (List.Perm.swap _ _ _)).1 exT3 (by decide) (by decide) (by decide),
    (C7_deterministic_unique_max [exT1, exT3] [exT3, exT1] "yellow"
      (List.Perm.swap _ _ _)).2.2 TransformedTrip.hour_of_day (9, 5) ?_ ?_⟩
  · rw [hstats]
    exact List.mem_cons_self _ _
  · rw [hstats]
    intro q hq hne
    rcases List.mem_cons.mp hq with rfl | hq
    · exact absurd rfl hne
    · rcases List.mem_cons.mp hq with rfl | hq
      · norm_num
      · simp at hq

/-! ### Claim C9 -/

/-- SUM(trip_co2_kgs) of one (taxi_color, month_of_year) group of the
monthly query of analysis.py. -/
def monthTotal (trips : List TransformedTrip) (c : String) (m : Int) : ℚ :=
  ((trips.filter (fun t =>
      decide (t.taxi_color = c) && decide (t.month_of_year = m))).map
    TransformedTrip.trip_co2_kgs).sum

/-- The GROUP BY taxi_color, month_of_year result of the monthly query,
restricted to one taxi_color: one (month, total) row per distinct month
of that color. -/
def monthlyRows (trips : List TransformedTrip) (c : String) :
    List (Int × ℚ) :=
  (((trips.filter (fun t => decide (t.taxi_color = c))).map
      TransformedTrip.month_of_year).dedup).map
    (fun m => (m, monthTotal trips c m))

/-- The python series construction of analysis.py: start from
[0.0] * 12 and write each monthly row's total at index int(mo) - 1. -/
def seriesFor (trips : List TransformedTrip) (c : String) : List ℚ :=
  (monthlyRows trips c).foldl
    (fun acc p => acc.set (p.1 - 1).toNat p.2) (List.replicate 12 0)

theorem foldl_set_length (rows : List (Int × ℚ)) :
    ∀ (acc : List ℚ),
      (rows.foldl (fun a p => a.set (p.1 - 1).toNat p.2) acc).length =
        acc.length := by
  induction rows with
  | nil => intro acc; rfl
  | cons r rs ih =>
    intro acc
    simp only [List.foldl_cons]
    rw [ih, List.length_set]

theorem foldl_set_getD (f : Int → ℚ) :
    ∀ (keys : List Int) (acc : List ℚ), acc.length = 12 →
      keys.Nodup → (∀ k ∈ keys, 1 ≤ k ∧ k ≤ 12) →
      ∀ (m : Nat), 1 ≤ m → m ≤ 12 →
        ((keys.map (fun k => (k, f k))).foldl
            (fun a p => a.set (p.1 - 1).toNat p.2) acc).getD (m - 1) 0 =
          if (m : Int) ∈ keys then f m else acc.getD (m - 1) 0 := by
  intro keys
  induction keys with
  | nil =>
    intro acc _ _ _ m _ _
    simp
  | cons k ks ih =>
    intro acc hlen hnd hrange m hm1 hm12
    rcases List.nodup_cons.mp hnd with ⟨hknotin, hksnd⟩
    have hkr := hrange k (List.mem_cons_self _ _)
    simp only [List.map_cons, List.foldl_cons]
    rw [ih (acc.set (k - 1).toNat (f k)) (by rw [List.length_set]; exact hlen)
      hksnd (fun j hj => hrange j (List.mem_cons_of_mem _ hj)) m hm1 hm12]
    by_cases hmk : (m : Int) = k
    · have hmem : (m : Int) ∉ ks := hmk ▸ hknotin
      rw [if_neg hmem, if_pos (hmk ▸ List.mem_cons_self k ks)]
      have hidx : (k - 1).toNat = m - 1 := by omega
      rw [hidx]
      have hlt : m - 1 < acc.length := by omega
      rw [List.getD_eq_getElem?_getD, List.getElem?_set_self hlt]
      simp [hmk]
    · have hne : (k - 1).toNat ≠ m - 1 := by omega
      by_cases hmem : (m : Int) ∈ ks
      · rw [if_pos hmem, if_pos (List.mem_cons_of_mem _ hmem)]
      · rw [if_neg hmem, if_neg (by
          intro hc
          rcases List.mem_cons.mp hc with hc | hc
          · exact hmk hc
          · exact hmem hc)]
        rw [List.getD_eq_getElem?_getD, List.getD_eq_getElem?_getD,
          List.getElem?_set_ne hne]

/-- C9: under the transform-stage guarantee that months lie in 1..12,
the per-class series handed to the chart has 12 elements, and element
m − 1 equals the class's summed trip_co2_kgs over month m — zero when
the class has no trips that month (the sum over the empty group). -/
theorem C9_monthly_series (trips : List TransformedTrip) (c : String)
    (hm : ∀ t ∈ trips, 1 ≤ t.month_of_year ∧ t.month_of_year ≤ 12) :
    (seriesFor trips c).length = 12 ∧
    ∀ m : Nat, 1 ≤ m → m ≤ 12 →
      (seriesFor trips c).getD (m - 1) 0 = monthTotal trips c (m : Int) := by
  constructor
  · rw [seriesFor, foldl_set_length, List.length_replicate]
  · intro m hm1 hm12
    have hkeys : ∀ k ∈ ((trips.filter (fun t => decide (t.taxi_color = c))).map
        TransformedTrip.month_of_year).dedup, 1 ≤ k ∧ k ≤ 12 := by
      intro k hk
      obtain ⟨t, ht, rfl⟩ := List.mem_map.mp (List.mem_dedup.mp hk)
      exact hm t (List.mem_of_mem_filter ht)
    rw [seriesFor, monthlyRows,
      foldl_set_getD (monthTotal trips c) _ _ (List.length_replicate _ _)
        (List.nodup_dedup _) hkeys m hm1 hm12]
    by_cases hmem : (m : Int) ∈ ((trips.filter (fun t =>
        decide (t.taxi_color = c))).map TransformedTrip.month_of_year).dedup
    · rw [if_pos hmem]
    · rw [if_neg hmem]
      have hempty : trips.filter (fun t =>
          decide (t.taxi_color = c) && decide (t.month_of_year = (m : Int))) = [] := by
        apply List.filter_eq_nil_iff.mpr
        intro t ht hsat
        simp only [Bool.and_eq_true, decide_eq_true_eq] at hsat
        apply hmem
        rw [List.mem_dedup]
        exact hsat.2 ▸ List.mem_map_of_mem _
          (List.mem_filter.mpr ⟨ht, decide_eq_true hsat.1⟩)
      rw [monthTotal, hempty]
      simp only [List.map_nil, List.sum_nil]
      interval_cases m <;> rfl

/-- C9 witness: the series of a concrete one-trip class, checked at its
month and at an empty month. -/
theorem C9_monthly_series_witness :
    (seriesFor [exT1] "yellow").length = 12 ∧
    (seriesFor [exT1] "yellow").getD 3 0 = monthTotal [exT1] "yellow" 4 ∧
    (seriesFor [exT1] "yellow").getD 0 0 = monthTotal [exT1] "yellow" 1 :=
  ⟨(C9_monthly_series [exT1] "yellow" (by decide)).1,
    (C9_monthly_series [exT1] "yellow" (by decide)).2 4 (by decide) (by decide),
    (C9_monthly_series [exT1] "yellow" (by decide)).2 1 (by decide) (by decide)⟩

end TaxiPipeline
